import Mathlib

/-!
Shallow embedding of the `wcookie` crate (HTTP `Set-Cookie` parsing and
request-matching, RFC 6265 style).

Modelling conventions:
* A Rust `&str` / `String` is modelled as a Lean `String`; internally the
  functions work on `List Char` (the string's Unicode scalar values).
  Rust byte indices (`str::len`, `str::find`, `str::rfind`) are modelled by
  summing the UTF-8 widths of the characters (`Char.utf8Size`); since valid
  UTF-8 is self-synchronizing, a byte-level occurrence of a valid UTF-8
  pattern always starts at a character boundary, so byte-level substring
  search coincides with character-boundary search.
* `chars().nth(i)` is `List.get?` (a CHARACTER index, which the source
  sometimes feeds with a BYTE index; the model preserves that confusion).
* Fallible Rust code returns `PResult`: `ok`, `err msg` (a returned
  `ParseError` with its message), or `panicked` (a Rust panic, e.g.
  `Option::unwrap` on `None` or `NaiveDate::from_ymd` out of range).
* `SystemTime` is seconds since the Unix epoch (`Nat`), `Duration` is whole
  seconds (`Nat`), `DateTime<Utc>` is a civil date-time record whose
  `timestamp` is computed with the standard days-from-civil algorithm
  (exactly chrono's `DateTime::timestamp`, which ignores leap seconds).
* `SystemTime::now()` is passed in explicitly as a `now : Nat` parameter to
  the constructors that capture the creation instant.
-/

/-- Set of characters trimmed by Rust `str::trim` (Unicode `White_Space`);
only the ASCII members ever occur in the inputs considered here. -/
def isRustWhitespace (c : Char) : Bool := c.isWhitespace

/-- Rust `str::trim`: remove leading and trailing whitespace. -/
def trimChars (l : List Char) : List Char :=
  ((l.dropWhile isRustWhitespace).reverse.dropWhile isRustWhitespace).reverse

/-- Rust `str::to_ascii_lowercase` on one character. -/
def asciiLower (c : Char) : Char :=
  if 'A' ≤ c ∧ c ≤ 'Z' then Char.ofNat (c.toNat + 32) else c

/-- Rust `str::to_ascii_lowercase`. -/
def toLowerAscii (l : List Char) : List Char := l.map asciiLower

/-- Rust `str::len`: the length in UTF-8 bytes. -/
def byteLen (l : List Char) : Nat := (l.map Char.utf8Size).sum

/-- Rust `chars().nth(i)`: the `i`-th character, if any. -/
def charsNth (l : List Char) (i : Nat) : Option Char := l.get? i

/-- Character index of the first occurrence of `c` (used to model
`str::find('=')`; for the ASCII characters searched here the byte index of
the occurrence equals `byteLen` of the preceding characters, and slicing at
that byte index is `take`/`drop` at this character index). -/
def findCharIdx : List Char → Char → Option Nat
  | [], _ => Option.none
  | x :: xs, c =>
      if x = c then some 0
      else (findCharIdx xs c).map (· + 1)

/-- Rust `str::split(';')`: always yields at least one (possibly empty)
piece. -/
def splitSem : List Char → List (List Char)
  | [] => [[]]
  | c :: rest =>
      if c = ';' then [] :: splitSem rest
      else
        match splitSem rest with
        | [] => [[c]]
        | h :: t => (c :: h) :: t

/-- Character positions at which `pat` occurs in `hay`. -/
def matchPositions (hay pat : List Char) : List Nat :=
  (List.range (hay.length + 1)).filter (fun i => pat.isPrefixOf (hay.drop i))

/-- Rust `str::rfind(pat)`: the BYTE index of the start of the last
occurrence of `pat` in `hay` (byte-level occurrences of valid UTF-8 coincide
with character-boundary occurrences). -/
def rfind (hay pat : List Char) : Option Nat :=
  (matchPositions hay pat).getLast?.map (fun i => byteLen (hay.take i))

/-- Numeric value of a decimal digit character. -/
def digVal (c : Char) : Nat := c.toNat - '0'.toNat

/-- Rust `u64::from_str`: optional `+` sign, then one or more decimal
digits, value below `2^64`; anything else (including a `-` sign) fails. -/
def parseU64 (l : List Char) : Option Nat :=
  let digits := match l with
    | '+' :: rest => rest
    | other => other
  if digits ≠ [] ∧ digits.all Char.isDigit then
    let v := digits.foldl (fun acc c => acc * 10 + digVal c) 0
    if v < 2 ^ 64 then some v else Option.none
  else Option.none

/-- Result of a fallible Rust computation: success, a returned
`ParseError` carrying its message, or a Rust panic. -/
inductive PResult (α : Type) where
  | ok : α → PResult α
  | err : String → PResult α
  | panicked : PResult α
deriving DecidableEq, Repr

/-- Does a character list begin with `'.'`? -/
def beginsDot : List Char → Bool
  | [] => false
  | c :: _ => c == '.'

/-- `chrono::DateTime<Utc>` as a civil date-time (proleptic Gregorian). -/
structure DateTime where
  year : Int
  month : Nat
  day : Nat
  hour : Nat
  minute : Nat
  second : Nat
deriving DecidableEq, Repr

/-- Gregorian leap year. -/
def isLeapYear (y : Int) : Bool :=
  y % 4 = 0 ∧ (y % 100 ≠ 0 ∨ y % 400 = 0)

/-- Days in a month of a given year. -/
def daysInMonth (y : Int) (m : Nat) : Nat :=
  if m = 2 then (if isLeapYear y then 29 else 28)
  else if m = 4 ∨ m = 6 ∨ m = 9 ∨ m = 11 then 30
  else 31

/-- Validity check performed by chrono's `NaiveDate::from_ymd(_opt)`. -/
def validYmd (y : Int) (m d : Nat) : Bool :=
  1 ≤ m ∧ m ≤ 12 ∧ 1 ≤ d ∧ d ≤ daysInMonth y m

/-- Validity check performed by chrono's `NaiveDate::and_hms(_opt)`. -/
def validHms (h mi s : Nat) : Bool :=
  h ≤ 23 ∧ mi ≤ 59 ∧ s ≤ 59

/-- Days since 1970-01-01 of a civil date (Howard Hinnant's
`days_from_civil`, the algorithm underlying chrono's day arithmetic). -/
def daysFromCivil (y : Int) (m d : Nat) : Int :=
  let y' : Int := if m ≤ 2 then y - 1 else y
  let era : Int := (if 0 ≤ y' then y' else y' - 399) / 400
  let yoe : Int := y' - era * 400
  let mp : Int := if 2 < m then (m : Int) - 3 else (m : Int) + 9
  let doy : Int := (153 * mp + 2) / 5 + (d : Int) - 1
  let doe : Int := yoe * 365 + yoe / 4 - yoe / 100 + doy
  era * 146097 + doe - 719468

/-- chrono's `DateTime::<Utc>::timestamp()`: seconds since the Unix epoch
(leap seconds ignored). -/
def timestamp (dt : DateTime) : Int :=
  daysFromCivil dt.year dt.month dt.day * 86400
    + (dt.hour : Int) * 3600 + (dt.minute : Int) * 60 + (dt.second : Int)

/-- Numeric fields captured by one of the three date grammars (the weekday
name is consumed but discarded, as in the source). -/
structure RawDate where
  day : Nat
  month : Nat
  year : Int
  hour : Nat
  minute : Nat
  second : Nat
deriving DecidableEq, Repr

/-- The three-letter weekday alternation `(Mon|Tue|Wed|Thu|Fri|Sat|Sun)`. -/
def isWkd3 (l : List Char) : Bool :=
  l = "Mon".data ∨ l = "Tue".data ∨ l = "Wed".data ∨ l = "Thu".data ∨
  l = "Fri".data ∨ l = "Sat".data ∨ l = "Sun".data

/-- Month number for the three-letter month alternation
`(Jan|...|Dec)`; doubles as the `match` table in the source, whose `_`
arm is unreachable because the regex only captures these twelve names. -/
def monthNum (l : List Char) : Option Nat :=
  if l = "Jan".data then some 1 else if l = "Feb".data then some 2
  else if l = "Mar".data then some 3 else if l = "Apr".data then some 4
  else if l = "May".data then some 5 else if l = "Jun".data then some 6
  else if l = "Jul".data then some 7 else if l = "Aug".data then some 8
  else if l = "Sep".data then some 9 else if l = "Oct".data then some 10
  else if l = "Nov".data then some 11 else if l = "Dec".data then some 12
  else Option.none

/-- Character class `(0[1-9]|[123][0-9])` (two-digit day). -/
def isDay2 (d1 d2 : Char) : Bool :=
  (d1 = '0' ∧ '1' ≤ d2 ∧ d2 ≤ '9') ∨
  ((d1 = '1' ∨ d1 = '2' ∨ d1 = '3') ∧ d2.isDigit)

/-- Character class `([0-1][0-9]|2[0-3])` (hour). -/
def isHour2 (h1 h2 : Char) : Bool :=
  ((h1 = '0' ∨ h1 = '1') ∧ h2.isDigit) ∨
  (h1 = '2' ∧ '0' ≤ h2 ∧ h2 ≤ '3')

/-- Character class `[0-5][0-9]` (minute / second). -/
def isMinSec2 (m1 m2 : Char) : Bool :=
  '0' ≤ m1 ∧ m1 ≤ '5' ∧ m2.isDigit

/-- Two decimal digits as a number. -/
def twoDig (a b : Char) : Nat := digVal a * 10 + digVal b

/-- Match the RFC 1123 pattern at the start of `s` (the pattern is fully
fixed-width: `Wkd, DD Mon YYYY HH:MM:SS GMT`, anything may follow). -/
def match1123At (s : List Char) : Option RawDate :=
  match s with
  | w1 :: w2 :: w3 :: ',' :: ' ' :: d1 :: d2 :: ' ' :: m1 :: m2 :: m3 :: ' ' ::
    y1 :: y2 :: y3 :: y4 :: ' ' :: h1 :: h2 :: ':' :: n1 :: n2 :: ':' ::
    s1 :: s2 :: ' ' :: 'G' :: 'M' :: 'T' :: _ =>
      if isWkd3 [w1, w2, w3] ∧ isDay2 d1 d2 ∧
         (y1.isDigit ∧ y2.isDigit ∧ y3.isDigit ∧ y4.isDigit) ∧
         isHour2 h1 h2 ∧ isMinSec2 n1 n2 ∧ isMinSec2 s1 s2 then
        (monthNum [m1, m2, m3]).map (fun mo =>
          { day := twoDig d1 d2, month := mo,
            year := (twoDig y1 y2 * 100 + twoDig y3 y4 : Nat),
            hour := twoDig h1 h2, minute := twoDig n1 n2,
            second := twoDig s1 s2 })
      else Option.none
  | _ => Option.none

/-- Unanchored leftmost search with the RFC 1123 pattern, as performed by
`Regex::captures`. -/
def find1123 : List Char → Option RawDate
  | [] => Option.none
  | c :: rest =>
      match match1123At (c :: rest) with
      | some r => some r
      | Option.none => find1123 rest

/-- `parse_rfc_1123_date` (src/rfc_1123.rs): on a regex match it builds the
date with the PANICKING `NaiveDate::from_ymd(..).and_hms(..)`, so an
out-of-range calendar value is a panic, not an `Err`; with no match it
returns `Err("Invalid date")`.  The `u32`/`i32` field parses cannot fail
because the regex classes only capture digits. -/
def parse_rfc_1123_date (date : String) : PResult DateTime :=
  match find1123 date.data with
  | some r =>
      if validYmd r.year r.month r.day ∧ validHms r.hour r.minute r.second then
        PResult.ok ⟨r.year, r.month, r.day, r.hour, r.minute, r.second⟩
      else PResult.panicked
  | Option.none => PResult.err "Invalid date"

/-- Fixed-width tail `HH:MM:SS GMT` of the RFC 850 pattern. -/
def timeGmtAt (s : List Char) : Option (Nat × Nat × Nat) :=
  match s with
  | h1 :: h2 :: ':' :: n1 :: n2 :: ':' :: s1 :: s2 :: ' ' ::
    'G' :: 'M' :: 'T' :: _ =>
      if isHour2 h1 h2 ∧ isMinSec2 n1 n2 ∧ isMinSec2 s1 s2 then
        some (twoDig h1 h2, twoDig n1 n2, twoDig s1 s2)
      else Option.none
  | _ => Option.none

/-- Year alternation `([0-9]{4}|[0-9]{2})` followed by a space and the
time/GMT tail; the four-digit branch is tried first (regex alternation is
leftmost-first). -/
def year850At (s : List Char) : Option (Int × Nat × Nat × Nat) :=
  match s with
  | y1 :: y2 :: y3 :: y4 :: ' ' :: rest =>
      if y1.isDigit ∧ y2.isDigit ∧ y3.isDigit ∧ y4.isDigit then
        (timeGmtAt rest).map (fun (h, n, sc) =>
          ((twoDig y1 y2 * 100 + twoDig y3 y4 : Nat), h, n, sc))
      else
        match s with
        | z1 :: z2 :: ' ' :: rest2 =>
            if z1.isDigit ∧ z2.isDigit then
              (timeGmtAt rest2).map (fun (h, n, sc) =>
                ((twoDig z1 z2 : Nat), h, n, sc))
            else Option.none
        | _ => Option.none
  | z1 :: z2 :: ' ' :: rest2 =>
      if z1.isDigit ∧ z2.isDigit then
        (timeGmtAt rest2).map (fun (h, n, sc) =>
          ((twoDig z1 z2 : Nat), h, n, sc))
      else Option.none
  | _ => Option.none

/-- RFC 850 pattern after the weekday name:
`, DD-Mon-YY[YY] HH:MM:SS GMT`. -/
def match850Rest (s : List Char) : Option RawDate :=
  match s with
  | ',' :: ' ' :: d1 :: d2 :: '-' :: m1 :: m2 :: m3 :: '-' :: rest =>
      if isDay2 d1 d2 then
        match monthNum [m1, m2, m3] with
        | some mo =>
            (year850At rest).map (fun (y, h, n, sc) =>
              { day := twoDig d1 d2, month := mo, year := y,
                hour := h, minute := n, second := sc })
        | Option.none => Option.none
      else Option.none
  | _ => Option.none

/-- The RFC 850 weekday alternation, in the order written in the regex
(full names before abbreviations, leftmost-first). -/
def weekdays850 : List (List Char) :=
  ["Monday".data, "Tuesday".data, "Wednesday".data, "Thursday".data,
   "Friday".data, "Saturday".data, "Sunday".data,
   "Mon".data, "Tue".data, "Wed".data, "Thu".data, "Fri".data,
   "Sat".data, "Sun".data]

/-- Try each weekday alternative in order; an alternative is kept only if
the rest of the pattern also matches (regex backtracking). -/
def tryWeekdays850 : List (List Char) → List Char → Option RawDate
  | [], _ => Option.none
  | w :: ws, s =>
      if w.isPrefixOf s then
        match match850Rest (s.drop w.length) with
        | some r => some r
        | Option.none => tryWeekdays850 ws s
      else tryWeekdays850 ws s

/-- Match the RFC 850 pattern at the start of `s`. -/
def match850At (s : List Char) : Option RawDate := tryWeekdays850 weekdays850 s

/-- Unanchored leftmost search with the RFC 850 pattern. -/
def find850 : List Char → Option RawDate
  | [] => Option.none
  | c :: rest =>
      match match850At (c :: rest) with
      | some r => some r
      | Option.none => find850 rest

/-- `parse_rfc_850_date` (src/rfc_850.rs): applies the two-digit-year
pivot (`+2000` below 70, `+1900` below 100), then builds the date with the
CHECKED `from_ymd_opt(..)?.and_hms_opt(..)?`, so an out-of-range calendar
value is `Err("Invalid date")`. -/
def parse_rfc_850_date (date : String) : PResult DateTime :=
  match find850 date.data with
  | some r =>
      let year := r.year +
        (if r.year < 70 then 2000 else if r.year < 100 then 1900 else 0)
      if validYmd year r.month r.day ∧ validHms r.hour r.minute r.second then
        PResult.ok ⟨year, r.month, r.day, r.hour, r.minute, r.second⟩
      else PResult.err "Invalid date"
  | Option.none => PResult.err "Invalid date"

/-- asctime tail: `HH:MM:SS YYYY` (anything may follow the year). -/
def timeYearAt (s : List Char) : Option (Nat × Nat × Nat × Int) :=
  match s with
  | h1 :: h2 :: ':' :: n1 :: n2 :: ':' :: s1 :: s2 :: ' ' ::
    y1 :: y2 :: y3 :: y4 :: _ =>
      if isHour2 h1 h2 ∧ isMinSec2 n1 n2 ∧ isMinSec2 s1 s2 ∧
         (y1.isDigit ∧ y2.isDigit ∧ y3.isDigit ∧ y4.isDigit) then
        some (twoDig h1 h2, twoDig n1 n2, twoDig s1 s2,
              ((twoDig y1 y2 * 100 + twoDig y3 y4 : Nat) : Int))
      else Option.none
  | _ => Option.none

/-- asctime day alternation `([1-9]|0[1-9]|[123][0-9])` followed by a space
and the time/year tail, alternatives tried in the order written. -/
def asctDayAt (s : List Char) : Option (Nat × Nat × Nat × Nat × Int) :=
  let alt1 : Option (Nat × Nat × Nat × Nat × Int) := match s with
    | d :: ' ' :: rest =>
        if '1' ≤ d ∧ d ≤ '9' then
          (timeYearAt rest).map (fun (h, n, sc, y) => (digVal d, h, n, sc, y))
        else Option.none
    | _ => Option.none
  match alt1 with
  | some r => some r
  | Option.none =>
    let alt2 : Option (Nat × Nat × Nat × Nat × Int) := match s with
      | '0' :: d :: ' ' :: rest =>
          if '1' ≤ d ∧ d ≤ '9' then
            (timeYearAt rest).map (fun (h, n, sc, y) => (digVal d, h, n, sc, y))
          else Option.none
      | _ => Option.none
    match alt2 with
    | some r => some r
    | Option.none =>
      match s with
      | d1 :: d2 :: ' ' :: rest =>
          if (d1 = '1' ∨ d1 = '2' ∨ d1 = '3') ∧ d2.isDigit then
            (timeYearAt rest).map (fun (h, n, sc, y) =>
              (twoDig d1 d2, h, n, sc, y))
          else Option.none
      | _ => Option.none

/-- asctime separator `[ ]{1,2}` before the day: the greedy quantifier
tries two spaces first, then one. -/
def asctSpacesDayAt (s : List Char) : Option (Nat × Nat × Nat × Nat × Int) :=
  let two := match s with
    | ' ' :: ' ' :: rest => asctDayAt rest
    | _ => Option.none
  match two with
  | some r => some r
  | Option.none =>
      match s with
      | ' ' :: rest => asctDayAt rest
      | _ => Option.none

/-- Match the asctime pattern `Wkd Mon[ ]{1,2}D[D] HH:MM:SS YYYY` at the
start of `s`. -/
def matchAsctAt (s : List Char) : Option RawDate :=
  match s with
  | w1 :: w2 :: w3 :: ' ' :: m1 :: m2 :: m3 :: rest =>
      if isWkd3 [w1, w2, w3] then
        match monthNum [m1, m2, m3] with
        | some mo =>
            (asctSpacesDayAt rest).map (fun (d, h, n, sc, y) =>
              { day := d, month := mo, year := y,
                hour := h, minute := n, second := sc })
        | Option.none => Option.none
      else Option.none
  | _ => Option.none

/-- Unanchored leftmost search with the asctime pattern. -/
def findAsct : List Char → Option RawDate
  | [] => Option.none
  | c :: rest =>
      match matchAsctAt (c :: rest) with
      | some r => some r
      | Option.none => findAsct rest

/-- `parse_asct_date` (src/asct.rs): like `parse_rfc_1123_date`, it uses the
PANICKING `NaiveDate::from_ymd(..).and_hms(..)`, so an out-of-range
calendar value is a panic, not an `Err`. -/
def parse_asct_date (date : String) : PResult DateTime :=
  match findAsct date.data with
  | some r =>
      if validYmd r.year r.month r.day ∧ validHms r.hour r.minute r.second then
        PResult.ok ⟨r.year, r.month, r.day, r.hour, r.minute, r.second⟩
      else PResult.panicked
  | Option.none => PResult.err "Invalid date"

/-- Does a character list begin with two dots? -/
def beginsDotDot : List Char → Bool
  | c1 :: c2 :: _ => c1 == '.' && c2 == '.'
  | _ => false

/-- `SameSite` attribute values (`enum SameSiteValue`). -/
inductive SameSiteValue where
  | Strict
  | Lax
  | None
deriving DecidableEq, Repr

/-- `SameSiteValue::from_str` (after the caller has ASCII-lowercased the
value): exactly `strict`, `lax` or `none`, else a `ParseError`. -/
def SameSiteValue.from_str (s : List Char) : PResult SameSiteValue :=
  if s = "strict".data then PResult.ok SameSiteValue.Strict
  else if s = "lax".data then PResult.ok SameSiteValue.Lax
  else if s = "none".data then PResult.ok SameSiteValue.None
  else PResult.err ("Invalid SameSite cookie directive value: " ++ String.mk s)

/-- `struct SetCookie` (src/lib.rs).  `created` is the `SystemTime` captured
at construction, in seconds since the Unix epoch; `max_age` is the
`Duration` in whole seconds; `extensions` is the `HashMap` as an
association list with last-insert-wins update. -/
structure SetCookie where
  name : String
  value : String
  domain : Option String
  path : Option String
  expires : Option DateTime
  max_age : Option Nat
  created : Nat
  same_site : SameSiteValue
  secure : Bool
  http_only : Bool
  extensions : List (String × Option String)
deriving DecidableEq, Repr

/-- `SetCookie::new`: mandatory name/value, all other fields defaulted
(`same_site` Lax, flags false, `created` = now). -/
def SetCookie.new (now : Nat) (name value : String) : SetCookie :=
  { name := name, value := value, domain := Option.none, path := Option.none,
    expires := Option.none, max_age := Option.none, created := now,
    same_site := SameSiteValue.Lax, secure := false, http_only := false,
    extensions := [] }

/-- `SetCookie::path_or_default`: the cookie path, defaulting to `"/"`. -/
def SetCookie.path_or_default (c : SetCookie) : String :=
  c.path.getD "/"

/-- `SetCookie::expire_time`: `created + max_age` when Max-Age is set;
else the `expires` timestamp when set — `u64::try_from(timestamp)` succeeds
exactly when the timestamp is non-negative, and a pre-epoch timestamp
falls back to the creation instant; else `None` (never expires). -/
def SetCookie.expire_time (c : SetCookie) : Option Nat :=
  match c.max_age with
  | some duration => some (c.created + duration)
  | Option.none =>
      match c.expires with
      | some date =>
          let time := timestamp date
          if 0 ≤ time then some time.toNat else some c.created
      | Option.none => Option.none

/-- `SetCookie::use_in_request_path`: RFC 6265 §5.1.4 path match, written
with Rust byte lengths (`str::len`) but CHARACTER indexing
(`chars().nth(..).unwrap()`), so the two `unwrap`s can panic (`Option.none`)
when the cookie path contains multi-byte characters. -/
def SetCookie.use_in_request_path (c : SetCookie) (path : String) : Option Bool :=
  let cookie_path := (c.path_or_default).data
  let p := path.data
  let cookie_path_len := byteLen cookie_path
  let request_path_len := byteLen p
  if ¬ cookie_path.isPrefixOf p then
    some false
  else if request_path_len = cookie_path_len then
    some true
  else
    match charsNth cookie_path (cookie_path_len - 1) with
    | Option.none => Option.none
    | some last =>
        if last = '/' then some true
        else
          match charsNth p cookie_path_len with
          | Option.none => Option.none
          | some nxt => some (nxt = '/')

/-- `SetCookie::use_in_request_domain`: false when no domain is set;
otherwise `rfind` locates the LAST byte-level occurrence of the cookie
domain in the request domain, accepting at index 0 or when the character
at `chars().nth(index - 1)` (a byte index used as a character index) is
`'.'`; that `unwrap` can panic (`Option.none`). -/
def SetCookie.use_in_request_domain (c : SetCookie) (request_domain : String) :
    Option Bool :=
  match c.domain with
  | Option.none => some false
  | some cookie_domain =>
      match rfind request_domain.data cookie_domain.data with
      | some index =>
          if index = 0 then some true
          else
            match charsNth request_domain.data (index - 1) with
            | Option.none => Option.none
            | some ch => some (ch = '.')
      | Option.none => some false

/-- `SetCookie::use_in_request`: domain must be set; a Secure cookie needs
a secure request; Strict needs exact domain equality; Lax needs
`use_in_request_domain`; None needs the COOKIE's `secure` flag (the source
tests `!self.secure`, not the request flag); finally the path must match.
A panic in a callee propagates (`Option.none`). -/
def SetCookie.use_in_request (c : SetCookie) (request_domain request_path : String)
    (secure : Bool) : Option Bool :=
  match c.domain with
  | Option.none => some false
  | some cookie_domain =>
      if c.secure ∧ ¬ secure then some false
      else if c.same_site = SameSiteValue.Strict ∧ cookie_domain ≠ request_domain then
        some false
      else
        match (if c.same_site = SameSiteValue.Lax then
                 c.use_in_request_domain request_domain
               else some true) with
        | Option.none => Option.none
        | some lax_ok =>
            if ¬ lax_ok then some false
            else if c.same_site = SameSiteValue.None ∧ ¬ c.secure then some false
            else c.use_in_request_path request_path

/-- `parse_cookie_value` (src/lib.rs): split at the first `=`, trim both
sides, reject an empty value — the NAME is not checked for emptiness. -/
def parse_cookie_value (cookie : List Char) : PResult (String × String) :=
  match findCharIdx cookie '=' with
  | some index =>
      let key := trimChars (cookie.take index)
      let value := trimChars (cookie.drop (index + 1))
      if value.length = 0 then
        PResult.err "Cookie value must not be empty"
      else
        PResult.ok (String.mk key, String.mk value)
  | Option.none =>
      PResult.err ("Malformed HTTP cookie: " ++ String.mk cookie)

/-- `enum CookieDirective` (src/lib.rs). -/
inductive CookieDirective where
  | Expires : DateTime → CookieDirective
  | MaxAge : Nat → CookieDirective
  | Domain : String → CookieDirective
  | Path : String → CookieDirective
  | SameSite : SameSiteValue → CookieDirective
  | Secure : CookieDirective
  | HttpOnly : CookieDirective
  | Extension : String → Option String → CookieDirective
deriving DecidableEq, Repr

/-- The `Expires` fallback chain:
`parse_rfc_1123_date(v).or_else(parse_rfc_850_date).or_else(parse_asct_date)`.
`or_else` only catches `Err`; a panic propagates. -/
def parseExpiresChain (v : List Char) : PResult DateTime :=
  match parse_rfc_1123_date (String.mk v) with
  | PResult.ok d => PResult.ok d
  | PResult.panicked => PResult.panicked
  | PResult.err _ =>
      match parse_rfc_850_date (String.mk v) with
      | PResult.ok d => PResult.ok d
      | PResult.panicked => PResult.panicked
      | PResult.err _ => parse_asct_date (String.mk v)

/-- `CookieDirective::from_str` (src/lib.rs): segments with `=` are keyed
on the lower-cased, trimmed key; an empty trimmed value is an error; known
keys produce their typed directive (`expires` via the date fallback chain,
`max-age` via `u64::from_str`), unknown keys become `Extension(key,
Some(value))`.  Segments without `=` are lower-cased and trimmed: `secure`
and `httponly` are flags, a value-requiring key is an error, anything else
becomes `Extension(key, None)`. -/
def CookieDirective.from_str (s : List Char) : PResult CookieDirective :=
  match findCharIdx s '=' with
  | some index =>
      let key := toLowerAscii (trimChars (s.take index))
      let value := trimChars (s.drop (index + 1))
      if value.length = 0 then
        PResult.err ("Directive " ++ String.mk key ++ " value must not be empty")
      else if key = "expires".data then
        match parseExpiresChain value with
        | PResult.ok d => PResult.ok (CookieDirective.Expires d)
        | PResult.err e => PResult.err e
        | PResult.panicked => PResult.panicked
      else if key = "max-age".data then
        match parseU64 value with
        | some digit => PResult.ok (CookieDirective.MaxAge digit)
        | Option.none => PResult.err "Cannot parse Max-age"
      else if key = "domain".data then
        PResult.ok (CookieDirective.Domain (String.mk value))
      else if key = "path".data then
        PResult.ok (CookieDirective.Path (String.mk value))
      else if key = "samesite".data then
        match SameSiteValue.from_str (toLowerAscii value) with
        | PResult.ok site_value => PResult.ok (CookieDirective.SameSite site_value)
        | PResult.err e => PResult.err e
        | PResult.panicked => PResult.panicked
      else
        PResult.ok (CookieDirective.Extension (String.mk key)
          (some (String.mk value)))
  | Option.none =>
      let directive := toLowerAscii (trimChars s)
      if directive = "secure".data then PResult.ok CookieDirective.Secure
      else if directive = "httponly".data then PResult.ok CookieDirective.HttpOnly
      else if directive = "domain".data ∨ directive = "expires".data ∨
              directive = "max-age".data ∨ directive = "path".data ∨
              directive = "samesite".data then
        PResult.err ("Directive " ++ String.mk directive ++ " needs a value")
      else
        PResult.ok (CookieDirective.Extension (String.mk directive) Option.none)

/-- The Domain directive's `strip_prefix(".")`: remove A SINGLE leading
dot, if present. -/
def stripLeadingDot (url : String) : String :=
  match url.data with
  | c :: rest => if c == '.' then String.mk rest else url
  | [] => url

/-- `HashMap::insert` modelled on an association list: replace the binding
for `k` if present, else append. -/
def insertExt (m : List (String × Option String)) (k : String)
    (v : Option String) : List (String × Option String) :=
  match m with
  | [] => [(k, v)]
  | (k', v') :: rest =>
      if k' = k then (k, v) :: rest else (k', v') :: insertExt rest k v

/-- One arm of the directive `match` in `SetCookie::from_str`. -/
def applyDirective (c : SetCookie) : CookieDirective → SetCookie
  | CookieDirective.Expires date => { c with expires := some date }
  | CookieDirective.MaxAge seconds => { c with max_age := some seconds }
  | CookieDirective.Domain url => { c with domain := some (stripLeadingDot url) }
  | CookieDirective.Path path => { c with path := some path }
  | CookieDirective.SameSite val => { c with same_site := val }
  | CookieDirective.Secure => { c with secure := true }
  | CookieDirective.HttpOnly => { c with http_only := true }
  | CookieDirective.Extension name value =>
      { c with extensions := insertExt c.extensions name value }

/-- The `while let` loop of `SetCookie::from_str`: classify each remaining
segment and fold it into the cookie; the first failure aborts. -/
def applyDirectives (c : SetCookie) : List (List Char) → PResult SetCookie
  | [] => PResult.ok c
  | seg :: rest =>
      match CookieDirective.from_str seg with
      | PResult.ok d => applyDirectives (applyDirective c d) rest
      | PResult.err e => PResult.err e
      | PResult.panicked => PResult.panicked

/-- `SetCookie::from_str` (src/lib.rs).  `s.split(';')` always yields at
least one piece, so the `else` arm of the source's
`if let Some(slice) = components.next()` — the arm that reports
`"Cookie has not got name/value"` for a directive-only header — is
unreachable dead code; it is embedded here verbatim on the empty-split
case to mirror the source. -/
def SetCookie.from_str (now : Nat) (s : String) : PResult SetCookie :=
  match splitSem s.data with
  | slice :: components =>
      match parse_cookie_value slice with
      | PResult.ok (key, value) =>
          applyDirectives (SetCookie.new now key value) components
      | PResult.err e => PResult.err e
      | PResult.panicked => PResult.panicked
  | [] =>
      match CookieDirective.from_str s.data with
      | PResult.ok _ => PResult.err "Cookie has not got name/value"
      | _ =>
          match parse_cookie_value s.data with
          | PResult.ok (key, value) => PResult.ok (SetCookie.new now key value)
          | PResult.err e => PResult.err e
          | PResult.panicked => PResult.panicked

/-- Projection used to state theorems about accepted cookies. -/
def nameValueOf (r : PResult SetCookie) : Option (String × String) :=
  match r with
  | PResult.ok c => some (c.name, c.value)
  | _ => Option.none

/-- Projection of the stored domain of an accepted cookie. -/
def domainOf (r : PResult SetCookie) : Option String :=
  match r with
  | PResult.ok c => c.domain
  | _ => Option.none

/-- The domain-match relation as the specification words it: the request
domain equals the cookie domain, or ends with the cookie domain as a suffix
whose immediately preceding character is `'.'`. -/
def domain_matches_spec (cookie_domain request_domain : String) : Bool :=
  request_domain = cookie_domain ||
  ("." ++ cookie_domain).data.isSuffixOf request_domain.data

/-- Decidable per-segment side condition for the amended C8 statement: the
segment, if it classifies as a `Domain` directive, carries a value that does
not begin with two dots. -/
def segDomainOk (seg : List Char) : Bool :=
  match CookieDirective.from_str seg with
  | PResult.ok (CookieDirective.Domain v) => !beginsDotDot v.data
  | _ => true

/-- Cookie with domain `b.a` (what `from_str "cookie1=122343; Domain=b.a"`
builds), used to exhibit the domain-matching divergence. -/
def cDemoBA : SetCookie :=
  { SetCookie.new 0 "cookie1" "122343" with domain := some "b.a" }

/-- Parsed cookie with the multi-byte path `/é`. -/
def c3PathCookie : SetCookie :=
  { SetCookie.new 0 "a" "b" with
      domain := some "b.a"
      path := some "/é" }

/-- Parsed cookie with the one-character domain `b`. -/
def c3DomCookie : SetCookie :=
  { SetCookie.new 0 "a" "b" with domain := some "b" }

/-- `SameSite=None` cookie WITHOUT the `Secure` attribute. -/
def c2InsecCookie : SetCookie :=
  { SetCookie.new 0 "a" "b" with
      domain := some "b.a"
      same_site := SameSiteValue.None }

/-- `SameSite=None` cookie WITH the `Secure` attribute. -/
def c2SecCookie : SetCookie := { c2InsecCookie with secure := true }

/-- Secure `SameSite=None` cookie for the C10 statement. -/
def c10Cookie : SetCookie :=
  { SetCookie.new 0 "a" "b" with
      domain := some "b.a"
      same_site := SameSiteValue.None
      secure := true }

/-- Cookie whose `Expires` lies before the Unix epoch, created at 100. -/
def c6wCookie : SetCookie :=
  { SetCookie.new 100 "a" "b" with expires := some ⟨1950, 1, 1, 0, 0, 0⟩ }

/-- Parsed cookie of the C8 witness header `a=b; Domain=.b.a`. -/
def c8wCookie : SetCookie :=
  { SetCookie.new 0 "a" "b" with domain := some "b.a" }

theorem splitSem_ne_nil (l : List Char) : splitSem l ≠ [] := by
  induction l with
  | nil => simp [splitSem]
  | cons c rest ih =>
      simp only [splitSem]
      split
      · simp
      · cases h : splitSem rest <;> simp

theorem applyDirective_value (c : SetCookie) (d : CookieDirective) :
    (applyDirective c d).value = c.value := by
  cases d <;> rfl

theorem applyDirectives_value : ∀ (segs : List (List Char)) (c c' : SetCookie),
    applyDirectives c segs = PResult.ok c' → c'.value = c.value := by
  intro segs
  induction segs with
  | nil =>
      intro c c' h
      simp only [applyDirectives] at h
      injection h with h'
      rw [h']
  | cons seg rest ih =>
      intro c c' h
      simp only [applyDirectives] at h
      split at h
      · rw [ih _ _ h, applyDirective_value]
      · injection h
      · injection h

theorem parse_cookie_value_ok_value (l : List Char) (k v : String)
    (h : parse_cookie_value l = PResult.ok (k, v)) : v.data ≠ [] := by
  unfold parse_cookie_value at h
  split at h
  · dsimp only at h
    split at h
    · injection h
    · next hne =>
        injection h with h'
        injection h' with hk hv
        rw [← hv]
        intro hd
        exact hne (by simpa using congrArg List.length hd)
  · injection h

theorem stripLeadingDot_noDot (v : String) (hv : beginsDotDot v.data = false) :
    beginsDot (stripLeadingDot v).data = false := by
  unfold stripLeadingDot
  rcases hd : v.data with _ | ⟨c, rest⟩
  · simp [beginsDot, hd]
  · by_cases hc : c = '.'
    · subst hc
      simp only [beq_self_eq_true, if_true]
      rcases rest with _ | ⟨c2, rest2⟩
      · simp [beginsDot]
      · rw [hd] at hv
        simp [beginsDotDot] at hv
        simp [beginsDot, hv]
    · simp only [beq_iff_eq, hc, if_false]
      simp [beginsDot, hd, hc]

theorem applyDirective_domain_inv (c : SetCookie) (seg : List Char)
    (d : CookieDirective)
    (hseg : CookieDirective.from_str seg = PResult.ok d)
    (hok : segDomainOk seg = true)
    (hc : ∀ dom, c.domain = some dom → beginsDot dom.data = false) :
    ∀ dom, (applyDirective c d).domain = some dom →
      beginsDot dom.data = false := by
  cases d with
  | Domain v =>
      intro dom hdom
      simp only [applyDirective] at hdom
      injection hdom with hdom'
      rw [← hdom']
      apply stripLeadingDot_noDot
      unfold segDomainOk at hok
      rw [hseg] at hok
      simpa using hok
  | Expires date => exact hc
  | MaxAge n => exact hc
  | Path p => exact hc
  | SameSite ss => exact hc
  | Secure => exact hc
  | HttpOnly => exact hc
  | Extension k w => exact hc

theorem applyDirectives_domain_inv :
    ∀ (segs : List (List Char)) (c c' : SetCookie),
    applyDirectives c segs = PResult.ok c' →
    (∀ seg ∈ segs, segDomainOk seg = true) →
    (∀ dom, c.domain = some dom → beginsDot dom.data = false) →
    ∀ dom, c'.domain = some dom → beginsDot dom.data = false := by
  intro segs
  induction segs with
  | nil =>
      intro c c' h _ hc
      simp only [applyDirectives] at h
      injection h with h'
      rw [← h']
      exact hc
  | cons seg rest ih =>
      intro c c' h hsegs hc
      simp only [applyDirectives] at h
      split at h
      · next d heq =>
          exact ih _ _ h (fun sg hsg => hsegs sg (List.mem_cons_of_mem _ hsg))
            (applyDirective_domain_inv c seg d heq
              (hsegs seg (List.mem_cons_self _ _)) hc)
      · injection h
      · injection h

/-- C1: the claim says `use_in_request_domain` is true iff the request
domain equals the cookie domain or ends with it right after a `'.'`, and in
particular that `c.b.a.evil` against cookie domain `b.a` returns false.  In
the source, `rfind` accepts ANY last occurrence preceded by `'.'` (or at
index 0), so `c.b.a.evil` — and even the prefix `b.a.x` — return true while
the specification's suffix-based relation rejects both. -/
theorem c1_domain_match_accepts_non_suffix_occurrence :
    SetCookie.use_in_request_domain cDemoBA "c.b.a.evil" = some true ∧
    domain_matches_spec "b.a" "c.b.a.evil" = false ∧
    SetCookie.use_in_request_domain cDemoBA "b.a.x" = some true ∧
    domain_matches_spec "b.a" "b.a.x" = false := by
  refine ⟨?_, ?_, ?_, ?_⟩ <;> decide

/-- C2: the claim says a `SameSite=None` cookie with a domain requires the
REQUEST to be secure, regardless of the cookie's own `secure` flag.  The
source instead tests the COOKIE's flag (`!self.secure`): with
`secure=false` the cookie is refused even on a secure request, and with
`secure=true` it is accepted on a secure request (the insecure-request case
is caught earlier by the Secure check). -/
theorem c2_same_site_none_tests_cookie_secure_flag :
    SetCookie.use_in_request c2InsecCookie "b.a" "/" true = some false ∧
    SetCookie.use_in_request c2SecCookie "b.a" "/" true = some true ∧
    SetCookie.use_in_request c2SecCookie "b.a" "/" false = some false := by
  refine ⟨?_, ?_, ?_⟩ <;> decide

/-- C3: the claim says the matcher functions are total (never panic) even
on multi-byte input.  The source indexes `chars()` with BYTE offsets: for
the validly parsed cookie `a=b; Path=/é; Domain=b.a` the call
`use_in_request_path "/éx"` unwraps `None` (a panic, modelled as
`Option.none`), and it propagates through `use_in_request`; likewise
`use_in_request_domain "ééb"` panics for the parsed cookie with domain
`b`. -/
theorem c3_matcher_panics_on_multibyte :
    SetCookie.from_str 0 "a=b; Path=/é; Domain=b.a" = PResult.ok c3PathCookie ∧
    SetCookie.use_in_request_path c3PathCookie "/éx" = Option.none ∧
    SetCookie.use_in_request c3PathCookie "b.a" "/éx" true = Option.none ∧
    SetCookie.from_str 0 "a=b; Domain=b" = PResult.ok c3DomCookie ∧
    SetCookie.use_in_request_domain c3DomCookie "ééb" = Option.none := by
  refine ⟨?_, ?_, ?_, ?_, ?_⟩ <;> decide

/-- C4: the claim says all three date parsers return a parse error on a
grammar-matching but out-of-range calendar date and never panic.  Only
`parse_rfc_850_date` does (it uses `from_ymd_opt`/`and_hms_opt`);
`parse_rfc_1123_date` and `parse_asct_date` use the panicking
`from_ymd`/`and_hms` and abort on `31 Feb 2023`.  The last conjunct checks
an in-range date parses as expected. -/
theorem c4_out_of_range_date_panics_instead_of_err :
    parse_rfc_1123_date "Wed, 31 Feb 2023 09:13:29 GMT" = PResult.panicked ∧
    parse_asct_date "Wed Feb 31 09:13:29 2023" = PResult.panicked ∧
    parse_rfc_850_date "Wednesday, 31-Feb-2023 09:13:29 GMT" =
      PResult.err "Invalid date" ∧
    parse_rfc_1123_date "Sun, 06 Nov 1994 08:49:37 GMT" =
      PResult.ok ⟨1994, 11, 6, 8, 49, 37⟩ := by
  refine ⟨?_, ?_, ?_, ?_⟩ <;> decide

/-- C5: the claim says a single directive-shaped token fails to parse, with
the distinct no-name/value error for a recognizable directive.  Since
`split(';')` always yields at least one piece, the source's
no-name/value arm is dead code: `Max-Age=-1200` is ACCEPTED as an ordinary
cookie named `Max-Age` with value `-1200`, and `Secure` fails with the
generic malformed-pair error instead of the distinct one. -/
theorem c5_directive_only_header_not_rejected :
    nameValueOf (SetCookie.from_str 0 "Max-Age=-1200") =
      some ("Max-Age", "-1200") ∧
    SetCookie.from_str 0 "Secure" =
      PResult.err "Malformed HTTP cookie: Secure" := by
  refine ⟨?_, ?_⟩ <;> decide

/-- C6: `expire_time` returns `created + max_age` whenever Max-Age is set
(ignoring Expires); otherwise the `expires` instant when its timestamp is
non-negative, the creation instant when it lies before the Unix epoch, and
`None` (never expires) when neither field is set. -/
theorem c6_expire_time_precedence (c : SetCookie) :
    (∀ d, c.max_age = some d → c.expire_time = some (c.created + d)) ∧
    (c.max_age = Option.none → ∀ dt, c.expires = some dt → 0 ≤ timestamp dt →
       c.expire_time = some (timestamp dt).toNat) ∧
    (c.max_age = Option.none → ∀ dt, c.expires = some dt → timestamp dt < 0 →
       c.expire_time = some c.created) ∧
    (c.max_age = Option.none → c.expires = Option.none →
       c.expire_time = Option.none) := by
  refine ⟨?_, ?_, ?_, ?_⟩
  · intro d h
    simp [SetCookie.expire_time, h]
  · intro h dt h2 h3
    simp [SetCookie.expire_time, h, h2, h3]
  · intro h dt h2 h3
    simp [SetCookie.expire_time, h, h2, not_le.mpr h3]
  · intro h h2
    simp [SetCookie.expire_time, h, h2]

/-- C6 witness: a cookie created at 100 whose `Expires` lies in 1950
(timestamp −631152000) expires at its creation instant. -/
theorem c6_expire_time_precedence_witness :
    SetCookie.expire_time c6wCookie = some 100 :=
  (c6_expire_time_precedence c6wCookie).2.2.1 rfl
    ⟨1950, 1, 1, 0, 0, 0⟩ rfl (by decide)

/-- C7 counterexample: the claim says an input with a leading `=` (empty
name) is rejected, but `=value` is accepted with the empty name (the source
only checks the VALUE for emptiness). -/
theorem c7_empty_name_accepted :
    nameValueOf (SetCookie.from_str 0 "=value") = some ("", "value") := by
  decide

/-- C7 amended: every header accepted by `from_str` yields a cookie whose
VALUE is non-empty after trimming; the name may be empty (an input whose
first segment has a leading `=` is accepted with an empty name). -/
theorem c7_value_nonempty_after_parse (now : Nat) (s : String) (c : SetCookie)
    (h : SetCookie.from_str now s = PResult.ok c) : c.value.data ≠ [] := by
  unfold SetCookie.from_str at h
  split at h
  · split at h
    · next key value hpv =>
        rw [applyDirectives_value _ _ _ h]
        exact parse_cookie_value_ok_value _ _ _ hpv
    · injection h
    · injection h
  · split at h
    · injection h
    · split at h
      · next key value hpv =>
          injection h with h'
          rw [← h']
          exact parse_cookie_value_ok_value _ _ _ hpv
      · injection h
      · injection h

/-- C7 witness: applying the amended theorem to the accepted header
`a=b`. -/
theorem c7_value_nonempty_after_parse_witness : ("b" : String).data ≠ [] :=
  c7_value_nonempty_after_parse 0 "a=b" (SetCookie.new 0 "a" "b") (by decide)

/-- C8 counterexample: the claim says the stored domain never begins with
`'.'` even when the directive value begins with several dots, but
`Domain=..b.a` stores `.b.a`, which begins with `'.'` (only ONE leading dot
is stripped). -/
theorem c8_double_dot_domain_keeps_dot :
    domainOf (SetCookie.from_str 0 "a=b; Domain=..b.a") = some ".b.a" ∧
    beginsDot (".b.a" : String).data = true := by
  refine ⟨?_, ?_⟩ <;> decide

/-- C8 amended: for every header accepted by `from_str` in which no
`Domain` directive's value begins with two consecutive dots, the stored
domain, if present, does not begin with `'.'` (exactly one leading dot is
stripped). -/
theorem c8_domain_single_dot_stripped (now : Nat) (s : String) (c : SetCookie)
    (h : SetCookie.from_str now s = PResult.ok c)
    (hsegs : ∀ seg ∈ splitSem s.data, segDomainOk seg = true) :
    ∀ d, c.domain = some d → beginsDot d.data = false := by
  unfold SetCookie.from_str at h
  split at h
  · next slice components heq =>
      split at h
      · next key value hpv =>
          refine applyDirectives_domain_inv _ _ _ h ?_ ?_
          · intro sg hsg
            exact hsegs sg (by rw [heq]; exact List.mem_cons_of_mem _ hsg)
          · intro dom hdom
            cases hdom
      · injection h
      · injection h
  · next heq => exact absurd heq (splitSem_ne_nil _)

/-- C8 witness: applying the amended theorem to the accepted header
`a=b; Domain=.b.a`, whose stored domain `b.a` does not begin with a dot. -/
theorem c8_domain_single_dot_stripped_witness :
    beginsDot ("b.a" : String).data = false :=
  c8_domain_single_dot_stripped 0 "a=b; Domain=.b.a" c8wCookie (by decide)
    (by decide) "b.a" rfl

/-- C9: two cookies that agree on name, value, domain, path, same-site,
secure, http-only and extensions but differ arbitrarily in `expires`,
`max_age` and `created` produce the same `use_in_request` verdict on every
request: the matcher never consults the expiration state, so an
already-expired cookie can still yield true. -/
theorem c9_matcher_independent_of_expiration (n v : String)
    (dom p : Option String) (e1 e2 : Option DateTime) (m1 m2 : Option Nat)
    (cr1 cr2 : Nat) (ss : SameSiteValue) (sec ho : Bool)
    (ext : List (String × Option String)) (rd rp : String) (s : Bool) :
    SetCookie.use_in_request ⟨n, v, dom, p, e1, m1, cr1, ss, sec, ho, ext⟩
      rd rp s =
    SetCookie.use_in_request ⟨n, v, dom, p, e2, m2, cr2, ss, sec, ho, ext⟩
      rd rp s := rfl

/-- C10: for a cookie with `SameSite=None`, a set domain and the `secure`
flag, a secure request is matched purely on the path:
`use_in_request_domain` is never consulted, so ANY request domain is
accepted. -/
theorem c10_same_site_none_skips_domain_check (c : SetCookie) (d : String)
    (hd : c.domain = some d) (hss : c.same_site = SameSiteValue.None)
    (hsec : c.secure = true) (rd rp : String) :
    c.use_in_request rd rp true = c.use_in_request_path rp := by
  unfold SetCookie.use_in_request
  rw [hd]
  simp [hss, hsec]

/-- C10 witness: the secure `SameSite=None` cookie with domain `b.a`
treats the entirely unrelated request domain like its own. -/
theorem c10_same_site_none_skips_domain_check_witness :
    SetCookie.use_in_request c10Cookie "totally.unrelated" "/" true =
      SetCookie.use_in_request_path c10Cookie "/" :=
  c10_same_site_none_skips_domain_check c10Cookie "b.a" rfl rfl rfl
    "totally.unrelated" "/"
